import Mathlib

/-!
# Verification of the HITL stock-trading agent

Shallow embedding of the repository's core:

* `src/8_HITL.py` — a LangGraph human-in-the-loop agent with two tools,
  `get_stock_price` (pure mocked lookup) and `buy_stocks` (suspends the run
  via `interrupt(...)` and resumes with a human decision delivered by
  `Command(resume=decision)`), a `ToolNode` dispatching tool-call batches,
  and a message history maintained with the `add_messages` reducer.
* `src/stock-agent-mcp/src/langgraph_agent/tools.py` — the Alpha Vantage
  HTTP helper `alpha_vantage_call`.

Python floats are modelled as rationals (every float literal in the source
is an exact decimal, written here with `mkRat` so that all definitions
reduce in the kernel); Python ints as `Int`; Python dicts of strings as
insertion-ordered association lists; the process environment and the HTTP
backend as explicit oracles.
-/

namespace StockAgent

/-- Decimal digits of the fraction `rem / den` (with `0 ≤ rem < den`),
produced by long division, at most `fuel` digits, stopping when the
remainder hits zero (every rational in the source terminates). -/
def natFracDigits : Nat → Nat → Nat → List Nat
  | 0, _, _ => []
  | fuel + 1, rem, den =>
    if rem = 0 then []
    else (rem * 10) / den :: natFracDigits fuel ((rem * 10) % den) den

/-- Model of Python `str(x)` on a float, under the rational model: sign,
integer part, then the fractional digits (`".0"` when the value is an
integer, as Python prints `2003.0`). -/
def floatStr (q : ℚ) : String :=
  let sign := if q.num < 0 then "-" else ""
  let a := q.num.natAbs
  let d := q.den
  let ds := natFracDigits 60 (a % d) d
  let frac := if ds.isEmpty then "0" else String.join (ds.map (fun k => toString k))
  sign ++ toString (a / d) ++ "." ++ frac

/-- Round `n / d` (with `d > 0`) to the nearest integer, ties to even — the
rounding Python's `format` applies when truncating to a fixed number of
decimal places. -/
def roundHalfEvenDiv (n : Int) (d : Nat) : Int :=
  let f := n.fdiv d
  let r := n.fmod d
  if 2 * r < (d : Int) then f
  else if (d : Int) < 2 * r then f + 1
  else if f % 2 = 0 then f else f + 1

/-- Model of Python `f"{x:.2f}"`: round to cents (half to even) and print
with exactly two decimal places. -/
def formatQ2 (q : ℚ) : String :=
  let m := roundHalfEvenDiv (100 * q.num) q.den
  let sign := if m < 0 then "-" else ""
  let a := m.natAbs
  let fp := a % 100
  let fpStr := if fp < 10 then "0" ++ toString fp else toString fp
  sign ++ toString (a / 100) ++ "." ++ fpStr

/-! ## The two tools of `src/8_HITL.py` -/

/-- `get_stock_price` from `src/8_HITL.py`: mocked price lookup,
`{"MSFT": 200.3, "AAPL": 100.4, "AMZN": 150.0, "RIL": 87.6}.get(symbol, 0.0)`
(`mkRat 2003 10 = 200.3`, and so on — see `get_stock_price_literals`). -/
def get_stock_price (symbol : String) : ℚ :=
  if symbol = "MSFT" then mkRat 2003 10
  else if symbol = "AAPL" then mkRat 1004 10
  else if symbol = "AMZN" then mkRat 150 1
  else if symbol = "RIL" then mkRat 876 10
  else mkRat 0 1

/-- The prompt `buy_stocks` passes to `interrupt`:
`f"Approve buying {quantity} {symbol} stocks for ${total_price:.2f}?"`. -/
def buyPrompt (symbol : String) (quantity : Int) (total_price : ℚ) : String :=
  "Approve buying " ++ toString quantity ++ " " ++ symbol ++ " stocks for $"
    ++ formatQ2 total_price ++ "?"

/-- The remainder of `buy_stocks` after `interrupt` returns `decision`:
`"yes"` confirms the purchase, anything else declines. -/
def buyMessage (symbol : String) (quantity : Int) (total_price : ℚ)
    (decision : String) : String :=
  if decision = "yes" then
    "You bought " ++ toString quantity ++ " shares of " ++ symbol
      ++ " for a total price of " ++ floatStr total_price
  else
    "Buying declined."

/-- Outcome of invoking one tool: either an immediate result (stringified by
`ToolNode`), or a suspension carrying the `interrupt` prompt together with
the continuation that consumes the resume decision. -/
inductive ToolOutcome where
  | done (result : String)
  | suspended (prompt : String) (resumeK : String → String)

/-- Whether a tool invocation completed without suspending. -/
def ToolOutcome.isDone : ToolOutcome → Bool
  | .done _ => true
  | .suspended _ _ => false

/-- The result of a completed tool invocation (`""` for a suspension;
only ever read under `isDone`). -/
def ToolOutcome.result : ToolOutcome → String
  | .done r => r
  | .suspended _ _ => ""

/-- `buy_stocks` from `src/8_HITL.py`: calling it suspends the run at the
`interrupt(...)` call with the approval prompt; the continuation is the rest
of the function body, branching on the decision. -/
def buy_stocks (symbol : String) (quantity : Int) (total_price : ℚ) : ToolOutcome :=
  .suspended (buyPrompt symbol quantity total_price)
    (buyMessage symbol quantity total_price)

/-- A tool-call request as emitted by the model: one of the two registered
tools with its arguments (the `call_id` is carried alongside in batches). -/
inductive ToolCallSpec where
  | getPrice (symbol : String)
  | buyStocks (symbol : String) (quantity : Int) (total_price : ℚ)

/-- Dispatch one tool call: `get_stock_price` returns immediately (its float
result stringified as tool-message content), `buy_stocks` suspends. -/
def runTool : ToolCallSpec → ToolOutcome
  | .getPrice s => .done (floatStr (get_stock_price s))
  | .buyStocks s q p => buy_stocks s q p

/-! ## The tool turn: `ToolNode` dispatch with `interrupt`/resume semantics

`ToolNode(tools)` executes a batch of tool calls in order. When a tool calls
`interrupt`, LangGraph records the already-produced tool messages, saves a
pending interrupt (the prompt plus the identity of the interrupted call),
and stops the batch; `graph.invoke(Command(resume=decision), ...)` feeds
`decision` to the interrupted call as the return value of `interrupt` and
continues with the rest of the batch. -/

/-- State of one tool turn: tool results committed so far (as
`(call_id, content)` pairs in execution order), the pending interrupt if a
call suspended (its `call_id`, prompt, and resume continuation), and the
batch requests not yet dispatched. -/
structure BatchState where
  resolved : List (Nat × String)
  pending : Option (Nat × String × (String → String))
  remaining : List (Nat × ToolCallSpec)

/-- Dispatch requests in order, accumulating results, until the batch is
exhausted or a tool suspends; on suspension the untouched tail of the batch
is kept as `remaining`. -/
def runCalls : List (Nat × ToolCallSpec) → List (Nat × String) → BatchState
  | [], acc => ⟨acc, none, []⟩
  | (cid, c) :: rest, acc =>
    match runTool c with
    | .done r => runCalls rest (acc ++ [(cid, r)])
    | .suspended p k => ⟨acc, some (cid, p, k), rest⟩

/-- Run a fresh tool-call batch. -/
def runBatch (calls : List (Nat × ToolCallSpec)) : BatchState :=
  runCalls calls []

/-- `Command(resume=decision)`: deliver the decision to the suspended call's
continuation as the return value of its `interrupt`, commit its result,
clear the pending interrupt, and continue with the remaining requests of
the original batch. A state with no pending interrupt is left unchanged. -/
def resumeRun (st : BatchState) (decision : String) : BatchState :=
  match st.pending with
  | none => st
  | some (cid, _, k) => runCalls st.remaining (st.resolved ++ [(cid, k decision)])

/-! ## Conversation state: the `add_messages` reducer of `State` -/

/-- One chat message of the `State` schema (`{"role", "content"}` dict,
plus the id LangGraph assigns to every stored message). -/
structure Message where
  mid : Nat
  role : String
  content : String
  deriving DecidableEq

/-- How `add_messages` merges ONE new message into the history: a message
whose id matches an existing one replaces it in place; otherwise it is
appended at the end. -/
def addOneMessage (hist : List Message) (m : Message) : List Message :=
  if hist.any (fun h => h.mid = m.mid) then
    hist.map (fun h => if h.mid = m.mid then m else h)
  else hist ++ [m]

/-- The `add_messages` reducer on the `messages` channel of `State`:
fold the update list into the history left to right. -/
def add_messages (hist new : List Message) : List Message :=
  new.foldl addOneMessage hist

/-- A state transition of the graph, as it affects the `messages` channel:
every node returns a list of new messages which `add_messages` merges into
the thread's history (user input, chatbot output, tool results, and the
resume path all go through this single reducer; checkpoint save stores the
merged list verbatim). -/
def applyTransition (hist : List Message) (new : List Message) : List Message :=
  add_messages hist new

/-! ## `alpha_vantage_call` from `src/stock-agent-mcp/src/langgraph_agent/tools.py`

Python dicts of query parameters are insertion-ordered association lists.
To state the frame property about the caller's dict (the source's
`params = dict(params)  # avoid mutating caller`), dicts live in an explicit
heap (a list of dicts addressed by index) and every in-place mutation of the
source is a store update at the mutated dict's reference. The environment
and the HTTP backend are oracles supplied by the caller. -/

/-- A Python `Dict[str, str]`: insertion-ordered key/value pairs. -/
abbrev PyDict := List (String × String)

/-- Python `d[k] = v`: overwrite in place when the key exists, else append. -/
def PyDict.setKey (d : PyDict) (k v : String) : PyDict :=
  if d.any (fun kv => kv.1 = k) then
    d.map (fun kv => if kv.1 = k then (k, v) else kv)
  else d ++ [(k, v)]

/-- A JSON value, as returned by `resp.json()`. -/
inductive Json where
  | null
  | str (s : String)
  | num (q : ℚ)
  | bool (b : Bool)
  | obj (fields : List (String × Json))
  | arr (elems : List Json)

/-- Python `data.get(k)` on a dict-shaped JSON value. -/
def jsonGet (j : Json) (k : String) : Option Json :=
  match j with
  | .obj fs => (fs.find? (fun kv => kv.1 = k)).map (fun kv => kv.2)
  | _ => none

/-- Python truthiness of a JSON value (`None`, `""`, `0`, `False`, `[]` and
`{}` are falsy). -/
def jsonTruthy : Json → Bool
  | .null => false
  | .str s => !(s = "")
  | .num q => !(q.num = 0)
  | .bool b => b
  | .obj fs => !fs.isEmpty
  | .arr xs => !xs.isEmpty

/-- Python `a or b` where `a`, `b` come from `dict.get` (an `Option`):
the first operand if truthy, else the second (with `None` as `null`). -/
def pyOrJson (a b : Option Json) : Json :=
  match a with
  | some v => if jsonTruthy v then v else b.getD .null
  | none => b.getD .null

/-- Python truthiness of `os.getenv(...)`: `None` and `""` are falsy. -/
def pyTruthyEnv : Option String → Bool
  | none => false
  | some s => !(s = "")

/-- What `alpha_vantage_call` consults outside the process: the process environment and
the HTTP backend (a GET of `url` with query `params` yields a status code
and a JSON body). -/
structure AVWorld where
  env : String → Option String
  http : String → PyDict → Nat × Json

/-- What a call to `alpha_vantage_call` produces: the returned value
(`Except.error` models a raised exception, here `raise_for_status`), the
final heap of dicts, and the HTTP GETs performed, in order. -/
structure AVResult where
  result : Except String Json
  store : List PyDict
  requests : List (String × PyDict)

/-- `alpha_vantage_call(params)` from `tools.py`, line by line: read
`ALPHA_VANTAGE_BASE_URL` (with the official default) and
`ALPHA_VANTAGE_API_KEY` from the environment; `params = dict(params)`
allocates a fresh copy of the caller's dict and rebinds the local name to
it; a missing/empty key returns the error dict without any HTTP request;
otherwise `params["apikey"] = api_key` mutates the copy, a GET is performed,
non-2xx raises (`raise_for_status`), a body containing `"Note"` or
`"Error Message"` is folded to an error dict, and anything else is returned
as is. `paramsRef` is the heap reference of the caller's `params`. -/
def alpha_vantage_call (w : AVWorld) (store : List PyDict) (paramsRef : Nat) :
    AVResult :=
  let base_url := (w.env "ALPHA_VANTAGE_BASE_URL").getD "https://www.alphavantage.co/query"
  let api_key := w.env "ALPHA_VANTAGE_API_KEY"
  let callerParams := (store[paramsRef]?).getD []
  let localRef := store.length
  let store1 := store ++ [callerParams]
  if !(pyTruthyEnv api_key) then
    { result := .ok (.obj [("error", .str "Missing ALPHA_VANTAGE_API_KEY in environment")]),
      store := store1, requests := [] }
  else
    let store2 := store1.set localRef (callerParams.setKey "apikey" (api_key.getD ""))
    let sent := (store2[localRef]?).getD []
    let statusBody := w.http base_url sent
    if 400 ≤ statusBody.1 then
      { result := .error "HTTPError", store := store2, requests := [(base_url, sent)] }
    else
      let data := statusBody.2
      let isRateLimitShape :=
        match data with
        | .obj fs => fs.any (fun kv => kv.1 = "Note") || fs.any (fun kv => kv.1 = "Error Message")
        | _ => false
      if isRateLimitShape then
        { result := .ok (.obj [("error", pyOrJson (jsonGet data "Note") (jsonGet data "Error Message"))]),
          store := store2, requests := [(base_url, sent)] }
      else
        { result := .ok data, store := store2, requests := [(base_url, sent)] }

/-! ## Helper lemmas -/

/-- The `mkRat` values in `get_stock_price` are exactly the source's float
literals `200.3`, `100.4`, `150.0`, `87.6`, `0.0`. -/
theorem get_stock_price_literals :
    mkRat 2003 10 = (200.3 : ℚ) ∧ mkRat 1004 10 = (100.4 : ℚ) ∧
    mkRat 150 1 = (150.0 : ℚ) ∧ mkRat 876 10 = (87.6 : ℚ) ∧
    mkRat 0 1 = (0.0 : ℚ) := by
  refine ⟨?_, ?_, ?_, ?_, ?_⟩ <;> · rw [Rat.mkRat_eq_div]; norm_num

/-- Dispatching never deletes or edits the results accumulated so far:
whatever `runCalls` returns extends the accumulator. -/
theorem runCalls_keeps_resolved (calls : List (Nat × ToolCallSpec))
    (acc : List (Nat × String)) :
    ∃ t, (runCalls calls acc).resolved = acc ++ t := by
  induction calls generalizing acc with
  | nil => exact ⟨[], by simp [runCalls]⟩
  | cons c rest ih =>
    obtain ⟨cid, call⟩ := c
    cases hr : runTool call with
    | done r =>
      have hstep : runCalls ((cid, call) :: rest) acc = runCalls rest (acc ++ [(cid, r)]) := by
        simp only [runCalls]; rw [hr]
      obtain ⟨t, ht⟩ := ih (acc ++ [(cid, r)])
      exact ⟨(cid, r) :: t, by rw [hstep, ht]; simp⟩
    | suspended p k =>
      have hstep : runCalls ((cid, call) :: rest) acc = ⟨acc, some (cid, p, k), rest⟩ := by
        simp only [runCalls]; rw [hr]
      exact ⟨[], by rw [hstep]; simp⟩

/-- A run of calls that all complete resolves every call, in order, with no
pending interrupt and nothing left over. -/
theorem runCalls_all_done (calls : List (Nat × ToolCallSpec))
    (acc : List (Nat × String)) (h : ∀ x ∈ calls, (runTool x.2).isDone = true) :
    runCalls calls acc
      = ⟨acc ++ calls.map (fun x => (x.1, (runTool x.2).result)), none, []⟩ := by
  induction calls generalizing acc with
  | nil => simp [runCalls]
  | cons c rest ih =>
    obtain ⟨cid, call⟩ := c
    cases hr : runTool call with
    | done r =>
      have hstep : runCalls ((cid, call) :: rest) acc = runCalls rest (acc ++ [(cid, r)]) := by
        simp only [runCalls]; rw [hr]
      have hrest : ∀ x ∈ rest, (runTool x.2).isDone = true :=
        fun x hx => h x (List.mem_cons_of_mem _ hx)
      rw [hstep, ih _ hrest]
      simp [hr, ToolOutcome.result]
    | suspended p k =>
      exfalso
      have hd := h (cid, call) (List.mem_cons_self _ _)
      rw [hr] at hd
      simp [ToolOutcome.isDone] at hd

/-- Dispatching a batch that starts with calls that all complete first
commits exactly their results, then continues with the rest. -/
theorem runCalls_append_done (pre rest : List (Nat × ToolCallSpec))
    (acc : List (Nat × String)) (h : ∀ x ∈ pre, (runTool x.2).isDone = true) :
    runCalls (pre ++ rest) acc
      = runCalls rest (acc ++ pre.map (fun x => (x.1, (runTool x.2).result))) := by
  induction pre generalizing acc with
  | nil => simp
  | cons c pre' ih =>
    obtain ⟨cid, call⟩ := c
    cases hr : runTool call with
    | done r =>
      have hstep : runCalls (((cid, call) :: pre') ++ rest) acc
          = runCalls (pre' ++ rest) (acc ++ [(cid, r)]) := by
        rw [List.cons_append]; simp only [runCalls]; rw [hr]
      have hrest : ∀ x ∈ pre', (runTool x.2).isDone = true :=
        fun x hx => h x (List.mem_cons_of_mem _ hx)
      rw [hstep, ih _ hrest]
      simp [hr, ToolOutcome.result]
    | suspended p k =>
      exfalso
      have hd := h (cid, call) (List.mem_cons_self _ _)
      rw [hr] at hd
      simp [ToolOutcome.isDone] at hd

/-- Merging one message whose id is fresh for the history appends it. -/
theorem addOneMessage_fresh (hist : List Message) (m : Message)
    (h : ∀ x ∈ hist, ¬ x.mid = m.mid) :
    addOneMessage hist m = hist ++ [m] := by
  unfold addOneMessage
  rw [if_neg]
  simp only [List.any_eq_true, decide_eq_true_eq, not_exists]
  intro x hx
  exact h x hx.1 hx.2

/-- `add_messages` with id-fresh updates is plain list append. -/
theorem add_messages_fresh (hist new : List Message)
    (hfresh : ((hist ++ new).map Message.mid).Nodup) :
    add_messages hist new = hist ++ new := by
  induction new generalizing hist with
  | nil => simp [add_messages]
  | cons m rest ih =>
    have hdisj : (hist.map Message.mid).Disjoint (m.mid :: rest.map Message.mid) := by
      have := hfresh
      simp only [List.map_append, List.map_cons, List.nodup_append] at this
      exact this.2.2
    have hm : ∀ x ∈ hist, ¬ x.mid = m.mid := by
      intro x hx heq
      exact hdisj (List.mem_map_of_mem _ hx) (heq ▸ List.mem_cons_self _ _)
    have h1 : add_messages hist (m :: rest) = add_messages (hist ++ [m]) rest := by
      simp [add_messages, addOneMessage_fresh hist m hm]
    have h2 : add_messages (hist ++ [m]) rest = (hist ++ [m]) ++ rest := by
      apply ih
      simpa using hfresh
    rw [h1, h2]
    simp

/-! ## Claim theorems -/

/-- C1: for every symbol, quantity and total_price, invoking `buy_stocks`
suspends the run with a suspend signal whose prompt is exactly
"Approve buying {quantity} {symbol} stocks for ${total_price to two
decimals}?"; in particular for quantity 10, symbol MSFT and total_price
2003.0 the prompt is "Approve buying 10 MSFT stocks for $2003.00?". -/
theorem buy_stocks_suspends_with_prompt (symbol : String) (quantity : Int)
    (total_price : ℚ) :
    buy_stocks symbol quantity total_price
      = ToolOutcome.suspended
          ("Approve buying " ++ toString quantity ++ " " ++ symbol
            ++ " stocks for $" ++ formatQ2 total_price ++ "?")
          (buyMessage symbol quantity total_price)
    ∧ buyPrompt "MSFT" 10 (2003.0 : ℚ)
        = "Approve buying 10 MSFT stocks for $2003.00?" := by
  refine ⟨rfl, ?_⟩
  have h : (2003.0 : ℚ) = mkRat 20030 10 := by rw [Rat.mkRat_eq_div]; norm_num
  rw [h]; decide

/-- C3: resuming a suspended `buy_stocks` call with the decision "yes" makes
the tool return a confirmation message stating the quantity, symbol and
total price; for 10 MSFT at total price 2003.0 the tool result confirms the
purchase of 10 shares for 2003.0. -/
theorem buy_stocks_resume_yes_confirms (symbol : String) (quantity : Int)
    (total_price : ℚ) :
    buyMessage symbol quantity total_price "yes"
      = "You bought " ++ toString quantity ++ " shares of " ++ symbol
          ++ " for a total price of " ++ floatStr total_price
    ∧ (resumeRun (runBatch [(7, ToolCallSpec.buyStocks "MSFT" 10 (2003.0 : ℚ))]) "yes").resolved
        = [(7, "You bought 10 shares of MSFT for a total price of 2003.0")] := by
  constructor
  · simp [buyMessage]
  · have h : (2003.0 : ℚ) = mkRat 20030 10 := by rw [Rat.mkRat_eq_div]; norm_num
    rw [h]; decide

/-- C4: every resume decision other than the exact string "yes" makes the
suspended `buy_stocks` call return the decline message "Buying declined."
as an ordinary committed tool result — the resumed batch ends with no
pending interrupt and no raised error. -/
theorem buy_stocks_decline_on_non_yes (symbol : String) (quantity : Int)
    (total_price : ℚ) (decision : String) (h : decision ≠ "yes") :
    buyMessage symbol quantity total_price decision = "Buying declined."
    ∧ (resumeRun (runBatch [(3, ToolCallSpec.buyStocks symbol quantity total_price)]) decision).resolved
        = [(3, "Buying declined.")]
    ∧ (resumeRun (runBatch [(3, ToolCallSpec.buyStocks symbol quantity total_price)]) decision).pending
        = none := by
  have hb : buyMessage symbol quantity total_price decision = "Buying declined." := by
    unfold buyMessage; rw [if_neg h]
  refine ⟨hb, ?_, ?_⟩ <;>
    simp [runBatch, runCalls, runTool, buy_stocks, resumeRun, hb]

/-- Witness for C4 at the concrete decision "no". -/
theorem buy_stocks_decline_on_non_yes_witness :
    ("no" : String) ≠ "yes"
    ∧ (buyMessage "MSFT" 10 (mkRat 20030 10) "no" = "Buying declined."
      ∧ (resumeRun (runBatch [(3, ToolCallSpec.buyStocks "MSFT" 10 (mkRat 20030 10))]) "no").resolved
          = [(3, "Buying declined.")]
      ∧ (resumeRun (runBatch [(3, ToolCallSpec.buyStocks "MSFT" 10 (mkRat 20030 10))]) "no").pending
          = none) :=
  ⟨by decide, buy_stocks_decline_on_non_yes "MSFT" 10 (mkRat 20030 10) "no" (by decide)⟩

/-- C7: `get_stock_price` answers without suspending the run, and returns
the mocked prices 200.3 for MSFT, 100.4 for AAPL, 150.0 for AMZN and
87.6 for RIL. -/
theorem get_stock_price_known_symbols (symbol : String) :
    (runTool (ToolCallSpec.getPrice symbol)).isDone = true
    ∧ get_stock_price "MSFT" = 200.3
    ∧ get_stock_price "AAPL" = 100.4
    ∧ get_stock_price "AMZN" = 150.0
    ∧ get_stock_price "RIL" = 87.6 := by
  refine ⟨rfl, ?_, ?_, ?_, ?_⟩
  · unfold get_stock_price
    rw [if_pos rfl, Rat.mkRat_eq_div]; norm_num
  · unfold get_stock_price
    rw [if_neg (by decide), if_pos rfl, Rat.mkRat_eq_div]; norm_num
  · unfold get_stock_price
    rw [if_neg (by decide), if_neg (by decide), if_pos rfl, Rat.mkRat_eq_div]; norm_num
  · unfold get_stock_price
    rw [if_neg (by decide), if_neg (by decide), if_neg (by decide), if_pos rfl,
      Rat.mkRat_eq_div]
    norm_num

/-- C8: every symbol outside the mocked table prices at zero — no failure,
no suspension, just the dict default 0.0. -/
theorem get_stock_price_unknown_symbol (symbol : String)
    (h : symbol ∉ (["MSFT", "AAPL", "AMZN", "RIL"] : List String)) :
    get_stock_price symbol = 0 := by
  simp only [List.mem_cons, List.not_mem_nil, or_false, not_or] at h
  obtain ⟨h1, h2, h3, h4⟩ := h
  unfold get_stock_price
  rw [if_neg h1, if_neg h2, if_neg h3, if_neg h4]
  decide

/-- Witness for C8 at the concrete unknown symbol "GOOG". -/
theorem get_stock_price_unknown_symbol_witness :
    ("GOOG" : String) ∉ (["MSFT", "AAPL", "AMZN", "RIL"] : List String)
    ∧ get_stock_price "GOOG" = 0 :=
  ⟨by decide, get_stock_price_unknown_symbol "GOOG" (by decide)⟩


/-- C2: for every suspended run and every resume decision, the decision is
delivered to the suspended tool call as the return value of its suspend
call (its final result is exactly the suspended continuation applied to
the decision), the pending interrupt is dropped, and execution continues
from the suspend point with the remaining requests of the batch — the
already-resolved results stay committed verbatim, followed by the
delivered result, with nothing restarted. -/
theorem resume_delivers_decision (calls : List (Nat × ToolCallSpec))
    (decision : String) (cid : Nat) (prompt : String) (k : String → String)
    (h : (runBatch calls).pending = some (cid, prompt, k)) :
    resumeRun (runBatch calls) decision
      = runCalls (runBatch calls).remaining
          ((runBatch calls).resolved ++ [(cid, k decision)])
    ∧ (resumeRun (runBatch calls) decision).resolved.take
          ((runBatch calls).resolved.length + 1)
      = (runBatch calls).resolved ++ [(cid, k decision)] := by
  have he : resumeRun (runBatch calls) decision
      = runCalls (runBatch calls).remaining
          ((runBatch calls).resolved ++ [(cid, k decision)]) := by
    unfold resumeRun; rw [h]
  refine ⟨he, ?_⟩
  rw [he]
  obtain ⟨t, ht⟩ := runCalls_keeps_resolved (runBatch calls).remaining
    ((runBatch calls).resolved ++ [(cid, k decision)])
  rw [ht]
  have hlen : (runBatch calls).resolved.length + 1
      = ((runBatch calls).resolved ++ [(cid, k decision)]).length := by simp
  rw [hlen]
  exact List.take_left _ _

/-- Witness for C2: a three-call batch whose second call suspends, resumed
with "yes". -/
theorem resume_delivers_decision_witness :
    (runBatch [(1, ToolCallSpec.getPrice "MSFT"),
        (2, ToolCallSpec.buyStocks "MSFT" 10 (mkRat 20030 10)),
        (3, ToolCallSpec.getPrice "AAPL")]).pending
      = some (2, buyPrompt "MSFT" 10 (mkRat 20030 10),
          buyMessage "MSFT" 10 (mkRat 20030 10))
    ∧ (resumeRun (runBatch [(1, ToolCallSpec.getPrice "MSFT"),
          (2, ToolCallSpec.buyStocks "MSFT" 10 (mkRat 20030 10)),
          (3, ToolCallSpec.getPrice "AAPL")]) "yes"
        = runCalls (runBatch [(1, ToolCallSpec.getPrice "MSFT"),
              (2, ToolCallSpec.buyStocks "MSFT" 10 (mkRat 20030 10)),
              (3, ToolCallSpec.getPrice "AAPL")]).remaining
            ((runBatch [(1, ToolCallSpec.getPrice "MSFT"),
                (2, ToolCallSpec.buyStocks "MSFT" 10 (mkRat 20030 10)),
                (3, ToolCallSpec.getPrice "AAPL")]).resolved
              ++ [(2, buyMessage "MSFT" 10 (mkRat 20030 10) "yes")])
      ∧ (resumeRun (runBatch [(1, ToolCallSpec.getPrice "MSFT"),
            (2, ToolCallSpec.buyStocks "MSFT" 10 (mkRat 20030 10)),
            (3, ToolCallSpec.getPrice "AAPL")]) "yes").resolved.take
            ((runBatch [(1, ToolCallSpec.getPrice "MSFT"),
                (2, ToolCallSpec.buyStocks "MSFT" 10 (mkRat 20030 10)),
                (3, ToolCallSpec.getPrice "AAPL")]).resolved.length + 1)
        = (runBatch [(1, ToolCallSpec.getPrice "MSFT"),
              (2, ToolCallSpec.buyStocks "MSFT" 10 (mkRat 20030 10)),
              (3, ToolCallSpec.getPrice "AAPL")]).resolved
            ++ [(2, buyMessage "MSFT" 10 (mkRat 20030 10) "yes")]) :=
  ⟨rfl,
    resume_delivers_decision
      [(1, ToolCallSpec.getPrice "MSFT"),
        (2, ToolCallSpec.buyStocks "MSFT" 10 (mkRat 20030 10)),
        (3, ToolCallSpec.getPrice "AAPL")]
      "yes" 2 (buyPrompt "MSFT" 10 (mkRat 20030 10))
      (buyMessage "MSFT" 10 (mkRat 20030 10)) rfl⟩

/-- C5: in a batch whose k-th request suspends (the earlier ones complete,
and the later ones would complete), the later requests do not run before
resume — only the first k−1 results are committed and the untouched tail is
kept as `remaining` — and after resume exactly the remaining requests
execute, with the k−1 already-resolved results carried over unchanged. -/
theorem batch_suspend_stops_then_resume_completes
    (pre post : List (Nat × ToolCallSpec)) (cid : Nat) (c : ToolCallSpec)
    (prompt : String) (k : String → String) (decision : String)
    (hpre : ∀ x ∈ pre, (runTool x.2).isDone = true)
    (hc : runTool c = ToolOutcome.suspended prompt k)
    (hpost : ∀ x ∈ post, (runTool x.2).isDone = true) :
    runBatch (pre ++ (cid, c) :: post)
      = ⟨pre.map (fun x => (x.1, (runTool x.2).result)),
          some (cid, prompt, k), post⟩
    ∧ resumeRun (runBatch (pre ++ (cid, c) :: post)) decision
      = ⟨pre.map (fun x => (x.1, (runTool x.2).result))
            ++ [(cid, k decision)]
            ++ post.map (fun x => (x.1, (runTool x.2).result)),
          none, []⟩ := by
  have h1 : runBatch (pre ++ (cid, c) :: post)
      = ⟨pre.map (fun x => (x.1, (runTool x.2).result)),
          some (cid, prompt, k), post⟩ := by
    unfold runBatch
    rw [runCalls_append_done pre ((cid, c) :: post) [] hpre]
    simp only [runCalls]; rw [hc]
    simp
  refine ⟨h1, ?_⟩
  rw [h1]
  show runCalls post
      (pre.map (fun x => (x.1, (runTool x.2).result)) ++ [(cid, k decision)]) = _
  rw [runCalls_all_done post _ hpost]

/-- Witness for C5: `[price MSFT, buy MSFT, price AAPL]` suspends at the
second request; resume with "no". -/
theorem batch_suspend_stops_then_resume_completes_witness :
    (∀ x ∈ [(1, ToolCallSpec.getPrice "MSFT")], (runTool x.2).isDone = true)
    ∧ runTool (ToolCallSpec.buyStocks "MSFT" 10 (mkRat 20030 10))
      = ToolOutcome.suspended (buyPrompt "MSFT" 10 (mkRat 20030 10))
          (buyMessage "MSFT" 10 (mkRat 20030 10))
    ∧ (∀ x ∈ [(3, ToolCallSpec.getPrice "AAPL")], (runTool x.2).isDone = true)
    ∧ (runBatch ([(1, ToolCallSpec.getPrice "MSFT")]
          ++ (2, ToolCallSpec.buyStocks "MSFT" 10 (mkRat 20030 10))
            :: [(3, ToolCallSpec.getPrice "AAPL")])
        = ⟨[(1, ToolCallSpec.getPrice "MSFT")].map
              (fun x => (x.1, (runTool x.2).result)),
            some (2, buyPrompt "MSFT" 10 (mkRat 20030 10),
              buyMessage "MSFT" 10 (mkRat 20030 10)),
            [(3, ToolCallSpec.getPrice "AAPL")]⟩
      ∧ resumeRun (runBatch ([(1, ToolCallSpec.getPrice "MSFT")]
            ++ (2, ToolCallSpec.buyStocks "MSFT" 10 (mkRat 20030 10))
              :: [(3, ToolCallSpec.getPrice "AAPL")])) "no"
        = ⟨[(1, ToolCallSpec.getPrice "MSFT")].map
              (fun x => (x.1, (runTool x.2).result))
            ++ [(2, buyMessage "MSFT" 10 (mkRat 20030 10) "no")]
            ++ [(3, ToolCallSpec.getPrice "AAPL")].map
              (fun x => (x.1, (runTool x.2).result)),
            none, []⟩) :=
  ⟨by decide, rfl, by decide,
    batch_suspend_stops_then_resume_completes
      [(1, ToolCallSpec.getPrice "MSFT")] [(3, ToolCallSpec.getPrice "AAPL")]
      2 (ToolCallSpec.buyStocks "MSFT" 10 (mkRat 20030 10))
      (buyPrompt "MSFT" 10 (mkRat 20030 10))
      (buyMessage "MSFT" 10 (mkRat 20030 10)) "no"
      (by decide) rfl (by decide)⟩

/-- C6: the message history is append-only — merging a transition whose
messages carry fresh ids (as every model turn, tool turn, resume and
checkpoint write does) appends them at the end: every previously committed
message is kept unchanged, in its original position. -/
theorem history_append_only (hist new : List Message)
    (hfresh : ((hist ++ new).map Message.mid).Nodup) :
    applyTransition hist new = hist ++ new
    ∧ (applyTransition hist new).take hist.length = hist := by
  have h2 : applyTransition hist new = hist ++ new :=
    add_messages_fresh hist new hfresh
  exact ⟨h2, by rw [h2]; exact List.take_left _ _⟩

/-- Witness for C6: a user turn followed by an assistant turn. -/
theorem history_append_only_witness :
    (([⟨1, "user", "What is the current price of 10 MSFT stocks?"⟩]
        ++ [⟨2, "assistant", "The current price of MSFT is 200.3"⟩]
        : List Message).map Message.mid).Nodup
    ∧ (applyTransition
          [⟨1, "user", "What is the current price of 10 MSFT stocks?"⟩]
          [⟨2, "assistant", "The current price of MSFT is 200.3"⟩]
        = [⟨1, "user", "What is the current price of 10 MSFT stocks?"⟩]
            ++ [⟨2, "assistant", "The current price of MSFT is 200.3"⟩]
      ∧ (applyTransition
            [⟨1, "user", "What is the current price of 10 MSFT stocks?"⟩]
            [⟨2, "assistant", "The current price of MSFT is 200.3"⟩]).take
          ([(⟨1, "user", "What is the current price of 10 MSFT stocks?"⟩ : Message)]).length
        = [⟨1, "user", "What is the current price of 10 MSFT stocks?"⟩]) :=
  ⟨by decide,
    history_append_only
      [⟨1, "user", "What is the current price of 10 MSFT stocks?"⟩]
      [⟨2, "assistant", "The current price of MSFT is 200.3"⟩] (by decide)⟩

/-- C9: if `ALPHA_VANTAGE_API_KEY` is unset or empty, `alpha_vantage_call`
returns the missing-key error dict and performs no HTTP request. -/
theorem alpha_vantage_call_missing_key (w : AVWorld) (store : List PyDict)
    (paramsRef : Nat)
    (h : w.env "ALPHA_VANTAGE_API_KEY" = none
      ∨ w.env "ALPHA_VANTAGE_API_KEY" = some "") :
    (alpha_vantage_call w store paramsRef).result
      = Except.ok (Json.obj
          [("error", Json.str "Missing ALPHA_VANTAGE_API_KEY in environment")])
    ∧ (alpha_vantage_call w store paramsRef).requests = [] := by
  have hk : pyTruthyEnv (w.env "ALPHA_VANTAGE_API_KEY") = false := by
    rcases h with h | h <;> simp [h, pyTruthyEnv]
  constructor <;> simp [alpha_vantage_call, hk]

/-- Witness for C9: an environment with no variables set at all. -/
theorem alpha_vantage_call_missing_key_witness :
    ((⟨fun _ => none, fun _ _ => (200, Json.null)⟩ : AVWorld).env
        "ALPHA_VANTAGE_API_KEY" = none
      ∨ (⟨fun _ => none, fun _ _ => (200, Json.null)⟩ : AVWorld).env
        "ALPHA_VANTAGE_API_KEY" = some "")
    ∧ ((alpha_vantage_call ⟨fun _ => none, fun _ _ => (200, Json.null)⟩
          [[("function", "OVERVIEW"), ("symbol", "MSFT")]] 0).result
        = Except.ok (Json.obj
            [("error", Json.str "Missing ALPHA_VANTAGE_API_KEY in environment")])
      ∧ (alpha_vantage_call ⟨fun _ => none, fun _ _ => (200, Json.null)⟩
          [[("function", "OVERVIEW"), ("symbol", "MSFT")]] 0).requests = []) :=
  ⟨Or.inl rfl,
    alpha_vantage_call_missing_key ⟨fun _ => none, fun _ _ => (200, Json.null)⟩
      [[("function", "OVERVIEW"), ("symbol", "MSFT")]] 0 (Or.inl rfl)⟩

/-- C10: `alpha_vantage_call` never changes the caller's `params` dict: the
`dict(params)` copy isolates the caller's mapping from the `apikey`
insertion, so the caller's heap slot holds the same keys and values after
the call, on every path (missing key, HTTP error, rate-limit body, or
success). -/
theorem alpha_vantage_call_preserves_params (w : AVWorld) (store : List PyDict)
    (paramsRef : Nat) (params : PyDict) (h : store[paramsRef]? = some params) :
    (alpha_vantage_call w store paramsRef).store[paramsRef]? = some params := by
  have hlt : paramsRef < store.length := by
    by_contra hge
    rw [List.getElem?_eq_none (Nat.le_of_not_lt hge)] at h
    exact Option.noConfusion h
  have hne : store.length ≠ paramsRef := fun he => absurd (he ▸ hlt) (lt_irrefl _)
  by_cases hk : pyTruthyEnv (w.env "ALPHA_VANTAGE_API_KEY")
  · have hst : (alpha_vantage_call w store paramsRef).store
        = (store ++ [(store[paramsRef]?).getD []]).set store.length
            (((store[paramsRef]?).getD []).setKey "apikey"
              ((w.env "ALPHA_VANTAGE_API_KEY").getD "")) := by
      simp only [alpha_vantage_call, hk, Bool.not_true]
      rw [if_neg (by simp)]
      split
      · rfl
      · split <;> rfl
    rw [hst, List.getElem?_set_ne hne, List.getElem?_append_left hlt]
    exact h
  · have hst : (alpha_vantage_call w store paramsRef).store
        = store ++ [(store[paramsRef]?).getD []] := by
      simp only [alpha_vantage_call, hk, Bool.not_false]
      rw [if_pos trivial]
    rw [hst, List.getElem?_append_left hlt]
    exact h

/-- Witness for C10: a concrete world with the key set and a 200 response. -/
theorem alpha_vantage_call_preserves_params_witness :
    ([[("function", "OVERVIEW"), ("symbol", "MSFT")]]
        : List PyDict)[0]? = some [("function", "OVERVIEW"), ("symbol", "MSFT")]
    ∧ (alpha_vantage_call
        ⟨fun v => if v = "ALPHA_VANTAGE_API_KEY" then some "demo" else none,
          fun _ _ => (200, Json.obj [("Name", Json.str "Microsoft")])⟩
        [[("function", "OVERVIEW"), ("symbol", "MSFT")]] 0).store[0]?
      = some [("function", "OVERVIEW"), ("symbol", "MSFT")] :=
  ⟨rfl,
    alpha_vantage_call_preserves_params
      ⟨fun v => if v = "ALPHA_VANTAGE_API_KEY" then some "demo" else none,
        fun _ _ => (200, Json.obj [("Name", Json.str "Microsoft")])⟩
      [[("function", "OVERVIEW"), ("symbol", "MSFT")]] 0
      [("function", "OVERVIEW"), ("symbol", "MSFT")] rfl⟩

end StockAgent
